import Mathlib

/-!
Shallow embedding of the Android NDK toolchain core of `cargo-mobile`
(`src/android/ndk.rs` and `src/android/target.rs`), together with proofs
about version parsing and display, environment construction, tool-path
resolution, the target registry, and artifact placement.

Filesystem interaction is modelled explicitly: read-only probes
(`is_dir`, `is_file`, property-file reads) become function-valued fields
of an `NdkFS` record, and the mutating placement step becomes a pure
state transformer over an `FSState` record of files, directories and
symlinks. Paths are strings; `PathBuf::join` of a relative component is
modelled as concatenation with a `/` separator.
-/

namespace CargoMobile

/-- NDK release version, `struct Version { major: u32, minor: u32 }`.
The Rust type derives `Ord`, which compares fields in declaration order:
major first, then minor. -/
structure Version where
  major : Nat
  minor : Nat
deriving DecidableEq, Repr

/-- Strict lexicographic order on versions, as produced by Rust
`derive(Ord)` on `Version`. -/
def Version.blt (a b : Version) : Bool :=
  a.major < b.major || (a.major == b.major && a.minor < b.minor)

/-- `MIN_NDK_VERSION` from `ndk.rs`. -/
def MIN_NDK_VERSION : Version := ⟨19, 0⟩

/-- The iterator `(b'a'..=b'z').map(char::from)` from `Display for Version`:
the 26 lowercase letters in order. -/
def letters : List Char := (List.range 26).map (fun i => Char.ofNat (97 + i))

/-- `impl Display for Version`: writes `r{major}`, then, when `minor != 0`,
the character `(b'a'..=b'z').map(char::from).nth(minor)`. `nth` is
zero-based, so minor `m` selects the letter at index `m`. The `.expect(..)`
panic for an out-of-range minor is modelled as `none`. -/
def Version.display (v : Version) : Option String :=
  if v.minor != 0 then
    (letters.get? v.minor).map (fun c => "r" ++ toString v.major ++ c.toString)
  else
    some ("r" ++ toString v.major)

/-- The `host_tag` functions of `ndk.rs`, one per `cfg` gate, folded into a
single function of the `target_os` string and `target_pointer_width` that the
gates test. `none` means no `host_tag` definition is compiled for that host.
The gates are transcribed exactly as written in the source, including the
`target_os = "window"` strings of the two Windows gates. -/
def host_tag (target_os : String) (target_pointer_width : Nat) : Option String :=
  if target_os = "macos" then some "darwin-x86_64"
  else if target_os = "linux" then some "linux-x86_64"
  else if target_os = "window" ∧ target_pointer_width = 32 then some "windows"
  else if target_os = "window" ∧ target_pointer_width = 64 then some "windows-x86_64"
  else none

/-- `enum Compiler { Clang, Clangxx }`. -/
inductive Compiler
  | Clang
  | Clangxx
deriving DecidableEq, Repr

/-- `Compiler::as_str`. -/
def Compiler.as_str : Compiler → String
  | .Clang => "clang"
  | .Clangxx => "clang++"

/-- `enum Binutil { Ar, Ld }`. -/
inductive Binutil
  | Ar
  | Ld
deriving DecidableEq, Repr

/-- `Binutil::as_str`. -/
def Binutil.as_str : Binutil → String
  | .Ar => "ar"
  | .Ld => "ld"

/-- `struct MissingToolError { name, tried_path }`. -/
structure MissingToolError where
  name : String
  tried_path : String
deriving DecidableEq, Repr

/-- Failure cause of `u32::from_str`, modelling `std::num::ParseIntError`
kinds reachable for an unsigned integer. -/
inductive ParseIntError
  | empty
  | invalidDigit
  | posOverflow
deriving DecidableEq, Repr

/-- `u32::from_str`: an optional leading `+`, then one or more ASCII
digits, rejecting the empty string, any non-digit, and values above
`u32::MAX`. -/
def parseU32 (s : String) : Except ParseIntError Nat :=
  match s.data with
  | [] => .error .empty
  | c :: rest =>
    let digits := if c = '+' then rest else c :: rest
    if digits.isEmpty then .error .invalidDigit
    else if digits.all Char.isDigit then
      let n := digits.foldl (fun acc d => acc * 10 + (d.toNat - 48)) 0
      if n < 2 ^ 32 then .ok n else .error .posOverflow
    else .error .invalidDigit

/-- `enum VersionError` from `ndk.rs`. The `io::Error` and
`PropertiesError` causes of the first two variants carry no information
used by this development and are dropped. -/
inductive VersionError
  | OpenFailed (path : String)
  | ParseFailed (path : String)
  | VersionMissing (path : String)
  | ComponentNotNumerical (path : String) (component : String) (cause : ParseIntError)
  | TooFewComponents (path : String) (version : String)
deriving DecidableEq, Repr

/-- Rust `str::split('.')`, worker: accumulates the current component in
reverse. `split` always yields at least one (possibly empty) component. -/
def splitDotAux : List Char → List Char → List String
  | [], acc => [String.mk acc.reverse]
  | c :: cs, acc =>
    if c = '.' then String.mk acc.reverse :: splitDotAux cs []
    else splitDotAux cs (c :: acc)

/-- Rust `str::split('.')` collected to a list. -/
def splitDot (s : String) : List String := splitDotAux s.data []

/-- The `.map(|component| component.parse::<u32>().map_err(..))
.collect::<Result<Vec<_>, _>>()` step of `Env::version`: parses each
component in order, stopping at the first failure and wrapping it as
`ComponentNotNumerical`. -/
def collectParsed (path : String) : List String → Except VersionError (List Nat)
  | [] => .ok []
  | c :: cs =>
    match parseU32 c with
    | .error cause => .error (VersionError.ComponentNotNumerical path c cause)
    | .ok n =>
      match collectParsed path cs with
      | .error e => .error e
      | .ok ns => .ok (n :: ns)

/-- The tail of `Env::version` applied to an already-split component list:
`.take(2)`, parse-and-collect, then the `components.len() == 2` check
producing either the `Version` or `TooFewComponents`. -/
def parseComponents (path revision : String) (components : List String) :
    Except VersionError Version :=
  match collectParsed path (components.take 2) with
  | .error e => .error e
  | .ok ns =>
    match ns with
    | [a, b] => .ok ⟨a, b⟩
    | _ => .error (VersionError.TooFewComponents path revision)

/-- The revision-string processing of `Env::version`:
`revision.split('.')` followed by `parseComponents`. -/
def parseRevision (path revision : String) : Except VersionError Version :=
  parseComponents path revision (splitDot revision)

/-- Outcome of `File::open` followed by `java_properties::read` on the
properties file, abstracting the two I/O-level failure modes. -/
inductive PropsReadError
  | openFailed
  | parseFailed
deriving DecidableEq, Repr

/-- Read-only filesystem and process environment visible to the NDK
environment code: directory and file probes, and the combined
open-and-parse of a properties file as a key/value list. -/
structure NdkFS where
  is_dir : String → Bool
  is_file : String → Bool
  readProps : String → Except PropsReadError (List (String × String))

/-- `struct Env { ndk_home: PathBuf }`. -/
structure Env where
  ndk_home : String
deriving DecidableEq, Repr

/-- The path `self.ndk_home.join("source.properties")`. -/
def Env.versionPath (env : Env) : String := env.ndk_home ++ "/source.properties"

/-- `Env::version`: opens and parses `<ndk_home>/source.properties`,
looks up `Pkg.Revision`, and parses the revision string. -/
def Env.version (env : Env) (fs : NdkFS) : Except VersionError Version :=
  let path := env.versionPath
  match fs.readProps path with
  | .error .openFailed => .error (VersionError.OpenFailed path)
  | .error .parseFailed => .error (VersionError.ParseFailed path)
  | .ok props =>
    match props.lookup "Pkg.Revision" with
    | none => .error (VersionError.VersionMissing path)
    | some revision => parseRevision path revision

/-- `enum Error` from `ndk.rs`. The `VarError` payload of `NdkHomeNotSet`
carries no information used here and is dropped. -/
inductive Error
  | NdkHomeNotSet
  | NdkHomeNotADir
  | VersionLookupFailed (e : VersionError)
  | VersionTooLow (you_have you_need : Version)
deriving DecidableEq, Repr

/-- `Env::new`: reads `NDK_HOME` (modelled as an `Option String`), checks
that it names a directory, resolves the version, and enforces
`version >= MIN_NDK_VERSION`. -/
def Env.new (fs : NdkFS) (ndkHomeVar : Option String) : Except Error Env :=
  match ndkHomeVar with
  | none => .error Error.NdkHomeNotSet
  | some ndk_home =>
    if fs.is_dir ndk_home then
      let env : Env := ⟨ndk_home⟩
      match env.version fs with
      | .error e => .error (Error.VersionLookupFailed e)
      | .ok version =>
        if Version.blt version MIN_NDK_VERSION then
          .error (Error.VersionTooLow version MIN_NDK_VERSION)
        else
          .ok env
    else
      .error Error.NdkHomeNotADir

/-- `Env::tool_dir`: `<ndk_home>/toolchains/llvm/prebuilt/<host-tag>/bin`,
parameterized by the host tag the compiled-in `host_tag()` returns. -/
def Env.tool_dir (env : Env) (fs : NdkFS) (hostTag : String) :
    Except MissingToolError String :=
  let path := env.ndk_home ++ "/toolchains/llvm/prebuilt/" ++ hostTag ++ "/bin"
  if fs.is_dir path then .ok path
  else .error ⟨"literally all of them", path⟩

/-- `Env::compiler_path`: probes `<tool_dir>/<triple><min_api>-<compiler>`. -/
def Env.compiler_path (env : Env) (fs : NdkFS) (hostTag : String)
    (compiler : Compiler) (triple : String) (min_api : Nat) :
    Except MissingToolError String :=
  match env.tool_dir fs hostTag with
  | .error e => .error e
  | .ok d =>
    let path := d ++ "/" ++ triple ++ toString min_api ++ "-" ++ compiler.as_str
    if fs.is_file path then .ok path
    else .error ⟨compiler.as_str, path⟩

/-- `Env::binutil_path`: probes `<tool_dir>/<triple>-<binutil>`. -/
def Env.binutil_path (env : Env) (fs : NdkFS) (hostTag : String)
    (binutil : Binutil) (triple : String) : Except MissingToolError String :=
  match env.tool_dir fs hostTag with
  | .error e => .error e
  | .ok d =>
    let path := d ++ "/" ++ triple ++ "-" ++ binutil.as_str
    if fs.is_file path then .ok path
    else .error ⟨binutil.as_str, path⟩

/-- `struct Target<'a>` from `target.rs`. -/
structure Target where
  triple : String
  clang_triple_override : Option String
  binutils_triple_override : Option String
  abi : String
  arch : String
deriving DecidableEq, Repr

/-- The registry built by `Target::all`: a `BTreeMap` from architecture key
to `Target`, listed here in the map's ascending key order
(`"aarch64" < "armv7" < "i686" < "x86_64"`). -/
def Target.all : List (String × Target) :=
  [("aarch64", ⟨"aarch64-linux-android", none, none, "arm64-v8a", "arm64"⟩),
   ("armv7", ⟨"armv7-linux-androideabi", some "armv7a-linux-androideabi",
              some "arm-linux-androideabi", "armeabi-v7a", "arm"⟩),
   ("i686", ⟨"i686-linux-android", none, none, "x86", "x86"⟩),
   ("x86_64", ⟨"x86_64-linux-android", none, none, "x86_64", "x86_64"⟩)]

/-- `Target::clang_triple`: the override, or else the canonical triple. -/
def Target.clang_triple (t : Target) : String :=
  t.clang_triple_override.getD t.triple

/-- `Target::binutils_triple`: the override, or else the canonical triple. -/
def Target.binutils_triple (t : Target) : String :=
  t.binutils_triple_override.getD t.triple

/-- `Target::for_abi`: `Self::all().values().find(|target| target.abi == abi)`,
a linear scan over the registry's values in key order. -/
def Target.for_abi (abi : String) : Option Target :=
  (Target.all.map Prod.snd).find? (fun t => t.abi == abi)

/-- Modelled from the spec: the configuration accessors used by artifact
placement, whose defining module (`android/config.rs` and the app config)
is not part of the verified sources. The spec gives the destination as
`<project>/app/src/main/jniLibs/<abi>/lib<name>.so` and the source as
`<app-root>/target/<triple>/<profile>/lib<name-snake-case>.so`, so a
config is modelled as the project directory, the app root against which
`prefix_path` resolves, and the snake-case app name. -/
structure Config where
  project_dir : String
  app_root : String
  name_snake : String
deriving DecidableEq, Repr

/-- `so_name` from `target.rs`: `lib<name-snake-case>.so`. -/
def so_name (config : Config) : String := "lib" ++ config.name_snake ++ ".so"

/-- Modelled from the spec: `opts::Profile` (not part of the verified
sources); its `as_str` supplies the `<profile>` path component, `debug`
or `release`. -/
inductive Profile
  | Debug
  | Release
deriving DecidableEq, Repr

/-- Modelled from the spec: the profile's path component. -/
def Profile.as_str : Profile → String
  | .Debug => "debug"
  | .Release => "release"

/-- `enum LibSymlinkError` from `target.rs`. The `io::Error` and
`ln::Error` payloads carry no information used here and are dropped. -/
inductive LibSymlinkError
  | JniLibsSubDirCreationFailed
  | SourceMissing (src : String)
  | SymlinkFailed
deriving DecidableEq, Repr

/-- Mutable filesystem state seen by artifact placement: existing regular
files, existing directories, and symlinks as an association of link path
to referent path. -/
structure FSState where
  files : List String
  dirs : List String
  links : List (String × String)
deriving Repr

/-- `Path::exists` over the model state: a regular file or directory is
present at the path. (Symlink chains are outside the model; the paths the
embedded code tests with `exists` are build artifacts and referents.) -/
def FSState.existsPath (st : FSState) (p : String) : Bool :=
  st.files.contains p || st.dirs.contains p

/-- `fs::create_dir_all`: records the directory (parents abstracted into
the path string). I/O failure of directory creation is outside the pure
model, so creation always succeeds. -/
def FSState.createDirAll (st : FSState) (p : String) : FSState :=
  { st with dirs := p :: st.dirs }

/-- `fs::remove_file` applied to a symlink: drops the link entry. In the
embedded code it is only called on a path `read_link` succeeded on. -/
def FSState.removeLink (st : FSState) (p : String) : FSState :=
  { st with links := st.links.filter (fun e => e.1 ≠ p) }

/-- Modelled from the spec: `ln::force_symlink` (from the `util::ln`
module, not part of the verified sources) replaces any existing symlink
or file at the destination with a symlink pointing at the source. -/
def FSState.force_symlink (st : FSState) (src dest : String) : FSState :=
  { st with
    files := st.files.filter (fun p => p ≠ dest),
    links := (dest, src) :: st.links.filter (fun e => e.1 ≠ dest) }

/-- `Target::get_jnilibs_subdir`:
`<project_dir>/app/src/main/jniLibs/<abi>`. -/
def Target.get_jnilibs_subdir (t : Target) (config : Config) : String :=
  config.project_dir ++ "/app/src/main/jniLibs/" ++ t.abi

/-- The jniLibs destination path for a target:
`get_jnilibs_subdir` joined with `so_name`. -/
def Target.jni_lib_path (t : Target) (config : Config) : String :=
  t.get_jnilibs_subdir config ++ "/" ++ so_name config

/-- The build-output source path computed by `Target::symlink_lib`:
`config.app().prefix_path("target/<triple>/<profile>/<so_name>")`. -/
def Target.lib_src_path (t : Target) (config : Config) (profile : Profile) : String :=
  config.app_root ++ "/target/" ++ t.triple ++ "/" ++ profile.as_str ++ "/"
    ++ so_name config

/-- `Target::symlink_lib`: creates the jniLibs subdirectory, computes the
source path, and either force-symlinks it to the destination or fails
with `SourceMissing` carrying the source path. Returns the result
together with the filesystem state after the call. -/
def Target.symlink_lib (t : Target) (config : Config) (profile : Profile)
    (st : FSState) : Except LibSymlinkError Unit × FSState :=
  let st1 := st.createDirAll (t.get_jnilibs_subdir config)
  let src := t.lib_src_path config profile
  if st1.existsPath src then
    (.ok (), st1.force_symlink src (t.jni_lib_path config))
  else
    (.error (LibSymlinkError.SourceMissing src), st1)

/-- One iteration of the `Target::clean_jnilibs` loop for a single target:
if `read_link` succeeds at the target's jniLibs destination and the
referent does not exist, the stale symlink is removed. -/
def cleanStep (config : Config) (st : FSState) (t : Target) : FSState :=
  let link := t.jni_lib_path config
  match st.links.lookup link with
  | some path => if st.existsPath path then st else st.removeLink link
  | none => st

/-- `Target::clean_jnilibs`: the loop over `Self::all().values()`. -/
def Target.clean_jnilibs (config : Config) (st : FSState) : FSState :=
  (Target.all.map Prod.snd).foldl (cleanStep config) st

/-- Boolean success test for `Except`, mirroring `Result::is_ok`. -/
def exceptIsOk : Except ε α → Bool
  | .ok _ => true
  | .error _ => false

/-- Concrete demo filesystem: an NDK at `/ndk` with revision `21.4.7075529`,
the Linux tool directory present, and exactly one compiler wrapper file. -/
def fsDemo : NdkFS where
  is_dir := fun p =>
    p == "/ndk" || p == "/ndk/toolchains/llvm/prebuilt/linux-x86_64/bin"
  is_file := fun p =>
    p == "/ndk/toolchains/llvm/prebuilt/linux-x86_64/bin/aarch64-linux-android21-clang"
  readProps := fun p =>
    if p == "/ndk/source.properties" then .ok [("Pkg.Revision", "21.4.7075529")]
    else .error .openFailed

/-- In-range indices into the letter iterator select `'a' + index`. -/
lemma letters_get (n : Nat) (h1 : 1 ≤ n) (h2 : n < 26) :
    letters.get? n = some (Char.ofNat (97 + n)) := by
  interval_cases n <;> rfl

/-- C1: the Display implementation writes `r<major>` and, for nonzero minor,
the letter at zero-based index `minor` of `a..z`, i.e. `'a' + minor` — not
`'a' + (minor - 1)`; minor 0 writes no letter. This is the amended claim. -/
theorem c1_display_letter (major minor : Nat) (h1 : 1 ≤ minor) (h2 : minor < 26) :
    Version.display ⟨major, minor⟩
      = some ("r" ++ toString major ++ (Char.ofNat (97 + minor)).toString)
  ∧ Version.display ⟨major, 0⟩ = some ("r" ++ toString major) := by
  constructor
  · have hne : minor ≠ 0 := by omega
    simp only [Version.display, bne_iff_ne, ne_eq, hne, not_false_eq_true, if_true,
      letters_get minor h1 h2]
    rfl
  · rfl

/-- C1 counterexample: the claim says minor 1 renders the letter `a`
(so `r21a` for version 21.1); the code renders `r21b`. -/
theorem c1_counterexample :
    Version.display ⟨21, 1⟩ = some "r21b" ∧ "r21b" ≠ "r21a" := by
  exact ⟨rfl, by decide⟩

/-- Closed instance of `c1_display_letter` at version 21.4. -/
theorem c1_witness :
    Version.display ⟨21, 4⟩
      = some ("r" ++ toString 21 ++ (Char.ofNat (97 + 4)).toString)
  ∧ Version.display ⟨21, 0⟩ = some ("r" ++ toString 21) :=
  c1_display_letter 21 4 (by decide) (by decide)

/-- A revision whose split begins `21`, `4` parses to version (21, 4),
whatever trails the first two components: they are dropped by `take 2`
before anything is parsed. -/
lemma parseRevision_21_4 (path revision : String) (rest : List String)
    (hsplit : splitDot revision = "21" :: "4" :: rest) :
    parseRevision path revision = .ok ⟨21, 4⟩ := by
  unfold parseRevision
  rw [hsplit]
  rfl

/-- C2: with `Pkg.Revision=21.4.7075529` in the properties file,
`Env::version` returns version (21, 4); components after the first two are
ignored (any revision splitting to `21`, `4`, … gives the same version);
and (21, 4) displays as `r21e`. -/
theorem c2_revision_parse (fs : NdkFS) (env : Env) (props : List (String × String))
    (hread : fs.readProps env.versionPath = .ok props)
    (hkey : props.lookup "Pkg.Revision" = some "21.4.7075529") :
    env.version fs = .ok ⟨21, 4⟩
  ∧ Version.display ⟨21, 4⟩ = some "r21e"
  ∧ ∀ revision rest, splitDot revision = "21" :: "4" :: rest →
      parseRevision env.versionPath revision = .ok ⟨21, 4⟩ := by
  refine ⟨?_, rfl, fun revision rest h => parseRevision_21_4 _ revision rest h⟩
  unfold Env.version
  simp only [hread, hkey]
  exact parseRevision_21_4 _ _ ["7075529"] rfl

/-- Closed instance of `c2_revision_parse` on the demo filesystem. -/
theorem c2_witness : Env.version ⟨"/ndk"⟩ fsDemo = .ok ⟨21, 4⟩ :=
  (c2_revision_parse fsDemo ⟨"/ndk"⟩ [("Pkg.Revision", "21.4.7075529")] rfl rfl).1

/-- C3: the `cfg` gates of `host_tag` as written. macOS and Linux hosts get
their tags, but the two Windows gates test `target_os = "window"` — a value
the `target_os` key never takes (the real value is `"windows"`) — so no
`host_tag` is defined for either Windows host, even though the dead gates
would return exactly the tags the spec names. -/
theorem c3_host_tag_cfg :
    host_tag "macos" 64 = some "darwin-x86_64"
  ∧ host_tag "linux" 64 = some "linux-x86_64"
  ∧ host_tag "windows" 32 = none
  ∧ host_tag "windows" 64 = none
  ∧ host_tag "window" 32 = some "windows"
  ∧ host_tag "window" 64 = some "windows-x86_64" := by
  refine ⟨rfl, rfl, by decide, by decide, by decide, by decide⟩

/-- C4: `Env::new` fails with `NdkHomeNotSet` when `NDK_HOME` is unset
(for every filesystem, so version resolution is never consulted), with
`NdkHomeNotADir` when the value is not a directory, with `VersionTooLow`
carrying the resolved version and the minimum (19, 0) when the resolved
version is lexicographically below the minimum, and otherwise returns the
environment rooted at the variable's value. -/
theorem c4_env_new (fs : NdkFS) :
    Env.new fs none = .error Error.NdkHomeNotSet
  ∧ (∀ home, fs.is_dir home = false →
      Env.new fs (some home) = .error Error.NdkHomeNotADir)
  ∧ (∀ home v, fs.is_dir home = true → Env.version ⟨home⟩ fs = .ok v →
      (Version.blt v MIN_NDK_VERSION = true →
        Env.new fs (some home) = .error (Error.VersionTooLow v MIN_NDK_VERSION))
    ∧ (Version.blt v MIN_NDK_VERSION = false →
        Env.new fs (some home) = .ok ⟨home⟩)) := by
  refine ⟨rfl, ?_, ?_⟩
  · intro home h
    simp [Env.new, h]
  · intro home v hdir hver
    constructor
    · intro hlt
      simp [Env.new, hdir, hver, hlt]
    · intro hge
      simp [Env.new, hdir, hver, hge]

/-- Closed instance of `c4_env_new`: on the demo filesystem, construction
succeeds and returns the environment rooted at `/ndk`. -/
theorem c4_witness : Env.new fsDemo (some "/ndk") = .ok ⟨"/ndk"⟩ :=
  ((c4_env_new fsDemo).2.2 "/ndk" ⟨21, 4⟩ rfl rfl).2 rfl

/-- When every component of the list parses, the collect step succeeds and
preserves length. -/
lemma collectParsed_ok (path : String) (l : List String)
    (h : ∀ c ∈ l, exceptIsOk (parseU32 c) = true) :
    ∃ ns, collectParsed path l = .ok ns ∧ ns.length = l.length := by
  induction l with
  | nil => exact ⟨[], rfl, rfl⟩
  | cons c cs ih =>
    have hc := h c (List.mem_cons_self c cs)
    obtain ⟨ns, hns, hlen⟩ := ih (fun x hx => h x (List.mem_cons_of_mem c hx))
    cases hp : parseU32 c with
    | error e => rw [hp] at hc; simp [exceptIsOk] at hc
    | ok n =>
      refine ⟨n :: ns, ?_, by simp [hlen]⟩
      simp [collectParsed, hp, hns]

/-- When some component of the list fails to parse, the collect step fails
with `ComponentNotNumerical` naming a failing component of the list. -/
lemma collectParsed_err (path : String) (l : List String)
    (h : ∃ c ∈ l, exceptIsOk (parseU32 c) = false) :
    ∃ c cause, c ∈ l ∧ parseU32 c = .error cause ∧
      collectParsed path l
        = .error (VersionError.ComponentNotNumerical path c cause) := by
  induction l with
  | nil => simp at h
  | cons c cs ih =>
    cases hp : parseU32 c with
    | error cause =>
      exact ⟨c, cause, List.mem_cons_self c cs, hp, by simp [collectParsed, hp]⟩
    | ok n =>
      obtain ⟨x, hx, hxf⟩ := h
      rcases List.mem_cons.mp hx with heq | hx'
      · subst heq; rw [hp] at hxf; simp [exceptIsOk] at hxf
      · obtain ⟨c', cause, hm, hcp, hcoll⟩ := ih ⟨x, hx', hxf⟩
        exact ⟨c', cause, List.mem_cons_of_mem c hm, hcp,
          by simp [collectParsed, hp, hcoll]⟩

/-- C5 (amended): if one of the first two dot-separated components fails to
parse, the result is `ComponentNotNumerical` naming a failing component;
`TooFewComponents`, naming the revision string, arises when fewer than two
components exist and every component parses — parse failure takes
precedence; `19` fails with `TooFewComponents`. -/
theorem c5_parse_errors (path revision : String) :
    ((∃ c ∈ (splitDot revision).take 2, exceptIsOk (parseU32 c) = false) →
      ∃ c cause, c ∈ (splitDot revision).take 2 ∧ parseU32 c = .error cause ∧
        parseRevision path revision
          = .error (VersionError.ComponentNotNumerical path c cause))
  ∧ ((∀ c ∈ (splitDot revision).take 2, exceptIsOk (parseU32 c) = true) →
      (splitDot revision).length < 2 →
      parseRevision path revision
        = .error (VersionError.TooFewComponents path revision))
  ∧ parseRevision path "19" = .error (VersionError.TooFewComponents path "19") := by
  refine ⟨?_, ?_, rfl⟩
  · intro h
    obtain ⟨c, cause, hm, hcp, hcoll⟩ := collectParsed_err path _ h
    exact ⟨c, cause, hm, hcp, by simp [parseRevision, parseComponents, hcoll]⟩
  · intro h hlen
    obtain ⟨ns, hns, hlen2⟩ := collectParsed_ok path _ h
    have hns2 : ns.length < 2 := by
      rw [hlen2, List.length_take]
      omega
    match ns, hns2 with
    | [], _ => simp [parseRevision, parseComponents, hns]
    | [a], _ => simp [parseRevision, parseComponents, hns]

/-- C5 counterexample: the revision `x` has a single dot-separated component
— fewer than two — yet the result is `ComponentNotNumerical`, not the
`TooFewComponents` the claim prescribes for that case. -/
theorem c5_counterexample :
    parseRevision "/ndk/source.properties" "x"
      = .error (VersionError.ComponentNotNumerical "/ndk/source.properties" "x"
          ParseIntError.invalidDigit)
  ∧ (splitDot "x").length = 1 :=
  ⟨rfl, rfl⟩

/-- Closed instance of `c5_parse_errors`: revision `19` fails with
`TooFewComponents` naming the revision string. -/
theorem c5_witness :
    parseRevision "/ndk/source.properties" "19"
      = .error (VersionError.TooFewComponents "/ndk/source.properties" "19") :=
  (c5_parse_errors "/ndk/source.properties" "19").2.1 (by decide) (by decide)

/-- C6: once the tool directory resolves to `d`, the compiler probe consults
exactly `d/<triple><min_api>-<compiler>` — succeeding with that path when the
file exists and failing with `MissingTool` carrying the compiler name and
that exact path otherwise — and the binutil probe likewise consults exactly
`d/<triple>-<binutil>`, with no API-level component. -/
theorem c6_tool_paths (fs : NdkFS) (tag : String) (env : Env)
    (compiler : Compiler) (binutil : Binutil) (triple : String) (min_api : Nat)
    (d : String) (hd : env.tool_dir fs tag = .ok d) :
    env.compiler_path fs tag compiler triple min_api
      = (if fs.is_file (d ++ "/" ++ triple ++ toString min_api ++ "-" ++ compiler.as_str)
         then .ok (d ++ "/" ++ triple ++ toString min_api ++ "-" ++ compiler.as_str)
         else .error ⟨compiler.as_str,
                d ++ "/" ++ triple ++ toString min_api ++ "-" ++ compiler.as_str⟩)
  ∧ env.binutil_path fs tag binutil triple
      = (if fs.is_file (d ++ "/" ++ triple ++ "-" ++ binutil.as_str)
         then .ok (d ++ "/" ++ triple ++ "-" ++ binutil.as_str)
         else .error ⟨binutil.as_str, d ++ "/" ++ triple ++ "-" ++ binutil.as_str⟩) := by
  constructor
  · unfold Env.compiler_path
    rw [hd]
  · unfold Env.binutil_path
    rw [hd]

/-- Closed instance of `c6_tool_paths` on the demo filesystem: the aarch64
clang wrapper at API 21 is present and resolves to its exact path; the `ar`
binutil is absent and the error names `ar` and the exact probed path. -/
theorem c6_witness :
    Env.compiler_path ⟨"/ndk"⟩ fsDemo "linux-x86_64" Compiler.Clang
        "aarch64-linux-android" 21
      = .ok "/ndk/toolchains/llvm/prebuilt/linux-x86_64/bin/aarch64-linux-android21-clang"
  ∧ Env.binutil_path ⟨"/ndk"⟩ fsDemo "linux-x86_64" Binutil.Ar "aarch64-linux-android"
      = .error ⟨"ar",
          "/ndk/toolchains/llvm/prebuilt/linux-x86_64/bin/aarch64-linux-android-ar"⟩ := by
  have h := c6_tool_paths fsDemo "linux-x86_64" ⟨"/ndk"⟩ Compiler.Clang Binutil.Ar
    "aarch64-linux-android" 21 "/ndk/toolchains/llvm/prebuilt/linux-x86_64/bin" rfl
  exact ⟨by rw [h.1]; rfl, by rw [h.2]; rfl⟩

/-- C7: when the computed build-output source path does not exist (checked
after the jniLibs subdirectory is created), `symlink_lib` fails with
`SourceMissing` carrying exactly that path, and the symlink table is left
untouched — no destination link is created or modified. -/
theorem c7_symlink_source_missing (t : Target) (config : Config)
    (profile : Profile) (st : FSState)
    (hsrc : (st.createDirAll (t.get_jnilibs_subdir config)).existsPath
              (t.lib_src_path config profile) = false) :
    (t.symlink_lib config profile st).1
      = .error (LibSymlinkError.SourceMissing (t.lib_src_path config profile))
  ∧ ((t.symlink_lib config profile st).2).links = st.links := by
  constructor
  · unfold Target.symlink_lib
    simp only [hsrc]
    rfl
  · unfold Target.symlink_lib
    simp only [hsrc]
    rfl

/-- Demo target: the aarch64 registry entry. -/
def aarch64Demo : Target :=
  ⟨"aarch64-linux-android", none, none, "arm64-v8a", "arm64"⟩

/-- Demo placement config. -/
def configDemo : Config := ⟨"/proj", "/approot", "myapp"⟩

/-- An empty starting filesystem state. -/
def stEmpty : FSState := ⟨[], [], []⟩

/-- Closed instance of `c7_symlink_source_missing`: on an empty filesystem
the aarch64 debug artifact is absent, placement fails with `SourceMissing`,
and no symlink appears. -/
theorem c7_witness :
    (aarch64Demo.symlink_lib configDemo Profile.Debug stEmpty).1
      = .error (LibSymlinkError.SourceMissing
          (aarch64Demo.lib_src_path configDemo Profile.Debug))
  ∧ ((aarch64Demo.symlink_lib configDemo Profile.Debug stEmpty).2).links
      = stEmpty.links :=
  c7_symlink_source_missing aarch64Demo configDemo Profile.Debug stEmpty rfl

/-- C8: looking up each registry entry's own ABI returns exactly that entry;
looking up a string that is no entry's ABI returns `none`, never an error;
and the four registry ABI names are pairwise distinct. -/
theorem c8_for_abi_lookup :
    (∀ e ∈ Target.all, Target.for_abi e.2.abi = some e.2)
  ∧ (∀ s, (∀ e ∈ Target.all, e.2.abi ≠ s) → Target.for_abi s = none)
  ∧ (Target.all.map (fun e => e.2.abi)).Nodup := by
  refine ⟨by decide, ?_, by decide⟩
  intro s h
  apply List.find?_eq_none.mpr
  intro t ht
  simp only [List.mem_map] at ht
  obtain ⟨e, hmem, rfl⟩ := ht
  simpa using h e hmem

/-- Closed instance of `c8_for_abi_lookup`: the aarch64 entry's ABI maps
back to it, and an unknown ABI maps to `none`. -/
theorem c8_witness :
    Target.for_abi "arm64-v8a"
      = some ⟨"aarch64-linux-android", none, none, "arm64-v8a", "arm64"⟩
  ∧ Target.for_abi "nonexistent-abi" = none := by
  constructor
  · exact c8_for_abi_lookup.1
      ("aarch64", ⟨"aarch64-linux-android", none, none, "arm64-v8a", "arm64"⟩)
      (by decide)
  · exact c8_for_abi_lookup.2.1 "nonexistent-abi" (by decide)

/-- C9: each effective triple defaults to the canonical triple when its
override is absent; in the registry, every entry other than `armv7` uses its
canonical triple for both lookups, while `armv7` uses
`armv7a-linux-androideabi` for compiler lookup and `arm-linux-androideabi`
for binutil lookup. -/
theorem c9_effective_triples :
    (∀ t : Target, t.clang_triple_override = none → t.clang_triple = t.triple)
  ∧ (∀ t : Target, t.binutils_triple_override = none → t.binutils_triple = t.triple)
  ∧ (∀ e ∈ Target.all, e.1 ≠ "armv7" →
      e.2.clang_triple = e.2.triple ∧ e.2.binutils_triple = e.2.triple)
  ∧ (∀ e ∈ Target.all, e.1 = "armv7" →
      e.2.clang_triple = "armv7a-linux-androideabi"
    ∧ e.2.binutils_triple = "arm-linux-androideabi") := by
  refine ⟨?_, ?_, by decide, by decide⟩
  · intro t h
    simp [Target.clang_triple, h]
  · intro t h
    simp [Target.binutils_triple, h]

/-- Closed instance of `c9_effective_triples`: the aarch64 entry's two
effective triples are its canonical triple, and the armv7 entry carries the
two documented overrides. -/
theorem c9_witness :
    aarch64Demo.clang_triple = "aarch64-linux-android"
  ∧ aarch64Demo.binutils_triple = "aarch64-linux-android"
  ∧ (⟨"armv7-linux-androideabi", some "armv7a-linux-androideabi",
       some "arm-linux-androideabi", "armeabi-v7a", "arm"⟩ : Target).clang_triple
      = "armv7a-linux-androideabi" := by
  refine ⟨c9_effective_triples.1 aarch64Demo rfl,
    c9_effective_triples.2.1 aarch64Demo rfl, ?_⟩
  exact (c9_effective_triples.2.2.2
    ("armv7", ⟨"armv7-linux-androideabi", some "armv7a-linux-androideabi",
       some "arm-linux-androideabi", "armeabi-v7a", "arm"⟩) (by decide) rfl).1

/-- One cleaning step never touches regular files. -/
lemma cleanStep_files (config : Config) (st : FSState) (t : Target) :
    (cleanStep config st t).files = st.files := by
  cases hl : st.links.lookup (t.jni_lib_path config) with
  | none => simp [cleanStep, hl]
  | some q =>
    by_cases he : st.existsPath q
    · simp [cleanStep, hl, he]
    · simp [cleanStep, hl, he, FSState.removeLink]

/-- One cleaning step never touches directories. -/
lemma cleanStep_dirs (config : Config) (st : FSState) (t : Target) :
    (cleanStep config st t).dirs = st.dirs := by
  cases hl : st.links.lookup (t.jni_lib_path config) with
  | none => simp [cleanStep, hl]
  | some q =>
    by_cases he : st.existsPath q
    · simp [cleanStep, hl, he]
    · simp [cleanStep, hl, he, FSState.removeLink]

/-- Path existence is invariant under a cleaning step: only symlinks are
ever removed, and existence consults files and directories. -/
lemma cleanStep_existsPath (config : Config) (st : FSState) (t : Target)
    (p : String) : (cleanStep config st t).existsPath p = st.existsPath p := by
  unfold FSState.existsPath
  rw [cleanStep_files, cleanStep_dirs]

/-- A cleaning step only ever drops link entries. -/
lemma cleanStep_links_sublist (config : Config) (st : FSState) (t : Target) :
    (cleanStep config st t).links.Sublist st.links := by
  cases hl : st.links.lookup (t.jni_lib_path config) with
  | none => simp [cleanStep, hl]
  | some q =>
    by_cases he : st.existsPath q
    · simp [cleanStep, hl, he]
    · simp [cleanStep, hl, he, FSState.removeLink, List.filter_sublist]

/-- Distinctness of link paths survives a cleaning step. -/
lemma cleanStep_keys_nodup (config : Config) (st : FSState) (t : Target)
    (h : (st.links.map Prod.fst).Nodup) :
    ((cleanStep config st t).links.map Prod.fst).Nodup :=
  (((cleanStep_links_sublist config st t).map Prod.fst).nodup) h

/-- With pairwise-distinct link paths, membership determines lookup. -/
lemma lookup_of_mem_nodup (l : List (String × String)) (p v : String)
    (hnd : (l.map Prod.fst).Nodup) (hmem : (p, v) ∈ l) :
    l.lookup p = some v := by
  induction l with
  | nil => simp at hmem
  | cons e l ih =>
    obtain ⟨k, w⟩ := e
    simp only [List.map_cons, List.nodup_cons] at hnd
    rcases List.mem_cons.mp hmem with heq | hmem'
    · cases heq
      simp [List.lookup]
    · have hk : (p == k) = false := by
        apply beq_eq_false_iff_ne.mpr
        intro hpk
        exact hnd.1 (hpk ▸ List.mem_map.mpr ⟨(p, v), hmem', rfl⟩)
      simp only [List.lookup, hk]
      exact ih hnd.2 hmem'

/-- A live link — one whose referent exists — survives a cleaning step. -/
lemma cleanStep_keeps (config : Config) (st : FSState) (t : Target)
    (p tgt : String) (hnd : (st.links.map Prod.fst).Nodup)
    (hmem : (p, tgt) ∈ st.links) (hex : st.existsPath tgt = true) :
    (p, tgt) ∈ (cleanStep config st t).links := by
  cases hl : st.links.lookup (t.jni_lib_path config) with
  | none => simpa [cleanStep, hl] using hmem
  | some q =>
    by_cases he : st.existsPath q
    · simpa [cleanStep, hl, he] using hmem
    · simp only [cleanStep, hl, he, Bool.false_eq_true, if_false,
        FSState.removeLink, List.mem_filter]
      refine ⟨hmem, ?_⟩
      simp only [decide_eq_true_eq]
      intro hpl
      rw [← hpl] at hl
      rw [lookup_of_mem_nodup st.links p tgt hnd hmem] at hl
      cases hl
      exact he hex

/-- A link removed by a cleaning step is that step's jniLibs destination and
its referent did not exist. -/
lemma cleanStep_removed (config : Config) (st : FSState) (t : Target)
    (p tgt : String) (hnd : (st.links.map Prod.fst).Nodup)
    (hmem : (p, tgt) ∈ st.links)
    (hout : (p, tgt) ∉ (cleanStep config st t).links) :
    p = t.jni_lib_path config ∧ st.existsPath tgt = false := by
  cases hl : st.links.lookup (t.jni_lib_path config) with
  | none =>
    simp only [cleanStep, hl] at hout
    exact absurd hmem hout
  | some q =>
    by_cases he : st.existsPath q
    · simp only [cleanStep, hl, he, if_true] at hout
      exact absurd hmem hout
    · simp only [cleanStep, hl, he, Bool.false_eq_true, if_false,
        FSState.removeLink, List.mem_filter, decide_eq_true_eq] at hout
      have hp : p = t.jni_lib_path config := by
        by_contra hne
        exact hout ⟨hmem, hne⟩
      refine ⟨hp, ?_⟩
      rw [← hp] at hl
      rw [lookup_of_mem_nodup st.links p tgt hnd hmem] at hl
      cases hl
      exact Bool.not_eq_true _ |>.mp he

/-- Files are untouched by the cleaning fold. -/
lemma clean_fold_files (config : Config) (ts : List Target) (st : FSState) :
    (ts.foldl (cleanStep config) st).files = st.files := by
  induction ts generalizing st with
  | nil => rfl
  | cons t ts ih => rw [List.foldl_cons, ih, cleanStep_files]

/-- Directories are untouched by the cleaning fold. -/
lemma clean_fold_dirs (config : Config) (ts : List Target) (st : FSState) :
    (ts.foldl (cleanStep config) st).dirs = st.dirs := by
  induction ts generalizing st with
  | nil => rfl
  | cons t ts ih => rw [List.foldl_cons, ih, cleanStep_dirs]

/-- Path existence is invariant under the cleaning fold. -/
lemma clean_fold_existsPath (config : Config) (ts : List Target) (st : FSState)
    (p : String) : (ts.foldl (cleanStep config) st).existsPath p = st.existsPath p := by
  unfold FSState.existsPath
  rw [clean_fold_files, clean_fold_dirs]

/-- The cleaning fold only ever drops link entries. -/
lemma clean_fold_links_sublist (config : Config) (ts : List Target) (st : FSState) :
    (ts.foldl (cleanStep config) st).links.Sublist st.links := by
  induction ts generalizing st with
  | nil => exact List.Sublist.refl _
  | cons t ts ih =>
    rw [List.foldl_cons]
    exact (ih (cleanStep config st t)).trans (cleanStep_links_sublist config st t)

/-- A live link survives the cleaning fold. -/
lemma clean_fold_keeps (config : Config) (ts : List Target) (st : FSState)
    (p tgt : String) (hnd : (st.links.map Prod.fst).Nodup)
    (hmem : (p, tgt) ∈ st.links) (hex : st.existsPath tgt = true) :
    (p, tgt) ∈ (ts.foldl (cleanStep config) st).links := by
  induction ts generalizing st with
  | nil => exact hmem
  | cons t ts ih =>
    rw [List.foldl_cons]
    exact ih (cleanStep config st t) (cleanStep_keys_nodup config st t hnd)
      (cleanStep_keeps config st t p tgt hnd hmem hex)
      (by rw [cleanStep_existsPath]; exact hex)

/-- A link removed by the cleaning fold is the jniLibs destination of one of
the folded targets, and its referent did not exist. -/
lemma clean_fold_removed (config : Config) (ts : List Target) (st : FSState)
    (p tgt : String) (hnd : (st.links.map Prod.fst).Nodup)
    (hmem : (p, tgt) ∈ st.links)
    (hout : (p, tgt) ∉ (ts.foldl (cleanStep config) st).links) :
    st.existsPath tgt = false ∧ ∃ t ∈ ts, p = t.jni_lib_path config := by
  induction ts generalizing st with
  | nil => exact absurd hmem hout
  | cons t ts ih =>
    rw [List.foldl_cons] at hout
    by_cases hstep : (p, tgt) ∈ (cleanStep config st t).links
    · obtain ⟨hex, t', ht', hp⟩ :=
        ih (cleanStep config st t) (cleanStep_keys_nodup config st t hnd) hstep hout
      rw [cleanStep_existsPath] at hex
      exact ⟨hex, t', List.mem_cons_of_mem t ht', hp⟩
    · obtain ⟨hp, hex⟩ := cleanStep_removed config st t p tgt hnd hmem hstep
      exact ⟨hex, t, List.mem_cons_self t ts, hp⟩

/-- C10: pruning removes a destination only when it is a symlink whose
referent no longer exists. Regular files and directories are never removed
or modified, links whose referent still exists all survive, no link is ever
added, and every removed link path is the jniLibs destination
`<jniLibs>/<abi>/lib<name>.so` of one of the registered targets. -/
theorem c10_clean_jnilibs (config : Config) (st : FSState)
    (hnd : (st.links.map Prod.fst).Nodup) :
    (Target.clean_jnilibs config st).files = st.files
  ∧ (Target.clean_jnilibs config st).dirs = st.dirs
  ∧ (∀ e ∈ (Target.clean_jnilibs config st).links, e ∈ st.links)
  ∧ (∀ p tgt, (p, tgt) ∈ st.links → st.existsPath tgt = true →
      (p, tgt) ∈ (Target.clean_jnilibs config st).links)
  ∧ (∀ p tgt, (p, tgt) ∈ st.links →
      (p, tgt) ∉ (Target.clean_jnilibs config st).links →
      st.existsPath tgt = false
    ∧ ∃ t ∈ Target.all.map Prod.snd, p = t.jni_lib_path config) := by
  refine ⟨clean_fold_files config _ st, clean_fold_dirs config _ st, ?_, ?_, ?_⟩
  · intro e he
    exact (clean_fold_links_sublist config _ st).mem he
  · intro p tgt hmem hex
    exact clean_fold_keeps config _ st p tgt hnd hmem hex
  · intro p tgt hmem hout
    exact clean_fold_removed config _ st p tgt hnd hmem hout

/-- Demo state for pruning: a live aarch64 link whose referent exists, and a
broken i686 link whose referent is gone. -/
def stDemo : FSState :=
  ⟨["/keep.so"], [],
   [("/proj/app/src/main/jniLibs/arm64-v8a/libmyapp.so", "/keep.so"),
    ("/proj/app/src/main/jniLibs/x86/libmyapp.so", "/gone.so")]⟩

/-- Closed instance of `c10_clean_jnilibs`: the live link survives pruning
of the demo state. -/
theorem c10_witness :
    ("/proj/app/src/main/jniLibs/arm64-v8a/libmyapp.so", "/keep.so")
      ∈ (Target.clean_jnilibs configDemo stDemo).links :=
  (c10_clean_jnilibs configDemo stDemo (by decide)).2.2.2.1
    "/proj/app/src/main/jniLibs/arm64-v8a/libmyapp.so" "/keep.so"
    (by decide) (by decide)

end CargoMobile
